import Mathlib

/-!
Shallow embedding of `src/app.py`, a single-file Streamlit CRUD application
over one SQLite table `entries(id, name, age, email, created_at)`.

The database table is modelled as a list of rows together with the
AUTOINCREMENT sequence counter (`nextId`); the database file is modelled as
`Option DB` (`none` = the `entries` table does not exist yet).  Nullable SQL
columns are `Option` fields.  The Streamlit controller (`main`) is modelled
as a step function on events: each form submission validates its input and
performs at most one data-access call, returning the new table state, the
inline message shown, and the list of data-access calls made.
-/

/-- One row of the `entries` table.
`id INTEGER PRIMARY KEY AUTOINCREMENT`, `name TEXT NOT NULL`,
`age INTEGER` (nullable), `email TEXT` (nullable, but the app always binds a
string), `created_at TIMESTAMP DEFAULT CURRENT_TIMESTAMP` (nullable column,
filled by the default on insert). -/
structure Entry where
  id : Nat
  name : String
  age : Option Int
  email : String
  created_at : Option Nat
deriving Repr, DecidableEq

/-- The `entries` table state: its rows in physical (insertion) order and the
AUTOICREMENT sequence value (the id the next insert will receive). -/
structure DB where
  rows : List Entry
  nextId : Nat
deriving Repr, DecidableEq

/-- The freshly created empty table: no rows, first id will be 1. -/
def freshDB : DB := { rows := [], nextId := 1 }

/-- Model of `create_table`: `CREATE TABLE IF NOT EXISTS entries (...)` on the database
file.  `none` models the state where the table does not exist. -/
def create_table (s : Option DB) : Option DB :=
  match s with
  | none => some freshDB
  | some db => some db

/-- Model of `insert_entry(name, age, email)`: `INSERT INTO entries (name, age, email)
VALUES (?, ?, ?)`, returning `cur.lastrowid`.  The storage engine assigns
`id := nextId` and fills `created_at` from `CURRENT_TIMESTAMP` (`now`). -/
def insert_entry (db : DB) (name : String) (age : Option Int) (email : String)
    (now : Nat) : DB × Nat :=
  ({ rows := db.rows ++
        [{ id := db.nextId, name := name, age := age, email := email,
           created_at := some now }],
     nextId := db.nextId + 1 },
   db.nextId)

/-- Model of `view_all()`: `SELECT * FROM entries ORDER BY id DESC`. -/
def view_all (db : DB) : List Entry :=
  db.rows.mergeSort (fun a b => decide (b.id ≤ a.id))

/-- Model of `get_entry_by_id(entry_id)`: `SELECT * FROM entries WHERE id = ?` with
`fetchone()`; `none` when no row matches. -/
def get_entry_by_id (db : DB) (entry_id : Nat) : Option Entry :=
  db.rows.find? (fun r => r.id == entry_id)

/-- Model of `update_entry(entry_id, name, age, email)`:
`UPDATE entries SET name = ?, age = ?, email = ? WHERE id = ?`. -/
def update_entry (db : DB) (entry_id : Nat) (name : String) (age : Option Int)
    (email : String) : DB :=
  { db with
    rows := db.rows.map (fun r =>
      if r.id = entry_id then
        { r with name := name, age := age, email := email }
      else r) }

/-- Model of `delete_entry(entry_id)`: `DELETE FROM entries WHERE id = ?`. -/
def delete_entry (db : DB) (entry_id : Nat) : DB :=
  { db with rows := db.rows.filter (fun r => r.id ≠ entry_id) }

/-- The controller's age coercion `int(age) if age else None`: the Streamlit
number widget yields a number in [0, 150]; zero (the default, i.e. the field
not provided) is falsy and becomes SQL NULL. -/
def formAge (age : Nat) : Option Int :=
  if age = 0 then none else some (age : Int)

/-- The inline message the controller shows for a submission. -/
inductive Outcome where
  | errorShown (msg : String)
  | successShown (msg : String)
deriving Repr, DecidableEq

/-- A call to one of the data-access functions, as recorded by the
controller model. -/
inductive DataCall where
  | insertCall
  | updateCall
  | deleteCall
deriving Repr, DecidableEq

/-- One form submission in `main`: the add form (name, age widget value,
email, with `now` the storage clock), the update form for a selected id, or
the delete form for a selected id with its confirmation checkbox. -/
inductive UIEvent where
  | add (name : String) (age : Nat) (email : String) (now : Nat)
  | update (entryId : Nat) (name : String) (age : Nat) (email : String)
  | delete (entryId : Nat) (confirm : Bool)
deriving Repr, DecidableEq

/-- The submission handler of `main`: validation, at most one storage call,
and the inline message, exactly as in the three `if submitted:` blocks. -/
def handleEvent (db : DB) (e : UIEvent) : DB × Outcome × List DataCall :=
  match e with
  | .add name age email now =>
    if name.trim = "" then
      (db, .errorShown "Name is required.", [])
    else
      let res := insert_entry db name.trim (formAge age) email.trim now
      let newId := res.2
      (res.1, .successShown s!"Added entry (id={newId}).", [.insertCall])
  | .update entryId name age email =>
    if name.trim = "" then
      (db, .errorShown "Name cannot be empty", [])
    else
      (update_entry db entryId name.trim (formAge age) email.trim,
       .successShown "Record updated.", [.updateCall])
  | .delete entryId confirm =>
    if confirm then
      (delete_entry db entryId, .successShown "Record deleted.", [.deleteCall])
    else
      (db, .errorShown "Please confirm deletion by checking the box.", [])

/-- One full rerun of `main`: `create_table()` on startup, then the
submission (if any) is handled. -/
def mainStep (s : Option DB) (e : UIEvent) : Option DB :=
  match create_table s with
  | some db => some ((handleEvent db e).1)
  | none => none

/-- A sequence of reruns of `main`, one event each. -/
def runEvents (s : Option DB) (events : List UIEvent) : Option DB :=
  events.foldl mainStep s

/-- Constraint enforced by the Streamlit widgets themselves:
`st.number_input("Age", min_value=0, max_value=150)` bounds the age field. -/
def widgetOK : UIEvent → Prop
  | .add _ age _ _ => age ≤ 150
  | .update _ _ age _ => age ≤ 150
  | .delete _ _ => True

instance : DecidablePred widgetOK := fun e => by
  cases e <;> simp only [widgetOK] <;> infer_instance

/-- Well-formedness of the table maintained by SQLite itself: every stored
id is below the AUTOINCREMENT counter, and ids are pairwise distinct
(`PRIMARY KEY`). -/
def WF (db : DB) : Prop :=
  (∀ r ∈ db.rows, r.id < db.nextId) ∧ (db.rows.map Entry.id).Nodup

instance : DecidablePred WF := fun _ => by unfold WF; infer_instance

/-- The age invariant stated by the spec: every persisted age is NULL or an
integer in [0, 150]. -/
def AgeOK (db : DB) : Prop :=
  ∀ r ∈ db.rows, r.age = none ∨ ∃ a : Int, r.age = some a ∧ 0 ≤ a ∧ a ≤ 150

instance : DecidablePred AgeOK := fun _ => by unfold AgeOK; infer_instance

/-- Predicate `AgeOK` lifted to the database-file state. -/
def AgeOKFile (s : Option DB) : Prop :=
  ∀ db : DB, s = some db → AgeOK db

/-! ### Connection lifecycle traces

Each data-access function runs its body inside `with get_conn() as conn:`.
Per the Python `sqlite3` semantics, entering the `with` block opens a fresh
connection (`sqlite3.connect`), and leaving it on success commits the open
transaction; the context manager does not close the connection.  The trace
below records, in order, the connection-level events each function performs
before returning: the `connect`, each `cur.execute`/`read_sql_query`, each
explicit `conn.commit()`, the context manager's commit on block exit, and
any `conn.close()` (there is none in the source). -/
inductive ConnEvent where
  | connect
  | executeStmt (stmt : String)
  | commit
  | close
deriving Repr, DecidableEq

/-- Connection events of `create_table`. -/
def create_table_trace : List ConnEvent :=
  [.connect, .executeStmt "CREATE TABLE IF NOT EXISTS entries", .commit, .commit]

/-- Connection events of `insert_entry`. -/
def insert_entry_trace : List ConnEvent :=
  [.connect, .executeStmt "INSERT INTO entries (name, age, email) VALUES (?, ?, ?)",
   .commit, .commit]

/-- Connection events of `view_all` (`pd.read_sql_query` executes the
select; the only commit is the context manager's). -/
def view_all_trace : List ConnEvent :=
  [.connect, .executeStmt "SELECT * FROM entries ORDER BY id DESC", .commit]

/-- Connection events of `get_entry_by_id`. -/
def get_entry_by_id_trace : List ConnEvent :=
  [.connect, .executeStmt "SELECT * FROM entries WHERE id = ?", .commit]

/-- Connection events of `update_entry`. -/
def update_entry_trace : List ConnEvent :=
  [.connect, .executeStmt "UPDATE entries SET name = ?, age = ?, email = ? WHERE id = ?",
   .commit, .commit]

/-- Connection events of `delete_entry`. -/
def delete_entry_trace : List ConnEvent :=
  [.connect, .executeStmt "DELETE FROM entries WHERE id = ?", .commit, .commit]

/-- The five data-access traces (plus the schema initializer's). -/
def allTraces : List (List ConnEvent) :=
  [create_table_trace, insert_entry_trace, view_all_trace,
   get_entry_by_id_trace, update_entry_trace, delete_entry_trace]

/-- A concrete well-formed table state used to instantiate the theorems. -/
def dbW : DB :=
  { rows := [{ id := 1, name := "Bob", age := some 41, email := "b@x.com",
               created_at := some 5 }],
    nextId := 2 }

/-- Conclusion of claim C1 at a table state `db` and insertion time `now`. -/
def C1Concl (db : DB) (now : Nat) : Prop :=
  (insert_entry db "Alice" (some 30) "a@x.com" now).2 = db.nextId ∧
  (insert_entry db "Alice" (some 30) "a@x.com" now).1.rows =
    db.rows ++ [{ id := db.nextId, name := "Alice", age := some 30,
                  email := "a@x.com", created_at := some now }] ∧
  (∀ r ∈ db.rows, r.id ≠ (insert_entry db "Alice" (some 30) "a@x.com" now).2) ∧
  (view_all (insert_entry db "Alice" (some 30) "a@x.com" now).1).countP
      (fun r => r.id == db.nextId && r.name == "Alice" && r.age == some 30 &&
        r.email == "a@x.com" && r.created_at != none) = 1

/-- Conclusion of claim C2: a blank-name add or update submission changes
nothing, makes no data-access call, and only shows the inline error. -/
def C2Concl (db : DB) (name : String) (age : Nat) (email : String) (now : Nat)
    (entryId : Nat) : Prop :=
  handleEvent db (.add name age email now) =
    (db, .errorShown "Name is required.", []) ∧
  handleEvent db (.update entryId name age email) =
    (db, .errorShown "Name cannot be empty", [])

/-- Conclusion of claim C4: `update_entry` changes exactly the three mutable
fields of the matching row, keeps id and created_at everywhere, and is a
no-op when no row matches. -/
def C4Concl (db : DB) (entryId : Nat) (name : String) (age : Option Int)
    (email : String) : Prop :=
  (update_entry db entryId name age email).rows.map Entry.id =
      db.rows.map Entry.id ∧
  (update_entry db entryId name age email).rows.map Entry.created_at =
      db.rows.map Entry.created_at ∧
  (update_entry db entryId name age email).rows.length = db.rows.length ∧
  (∀ (j : Nat) (h1 : j < db.rows.length)
      (h2 : j < (update_entry db entryId name age email).rows.length),
    ((db.rows.get ⟨j, h1⟩).id = entryId →
      (update_entry db entryId name age email).rows.get ⟨j, h2⟩ =
        { db.rows.get ⟨j, h1⟩ with
            name := name, age := age, email := email }) ∧
    ((db.rows.get ⟨j, h1⟩).id ≠ entryId →
      (update_entry db entryId name age email).rows.get ⟨j, h2⟩ =
        db.rows.get ⟨j, h1⟩)) ∧
  ((∀ r ∈ db.rows, r.id ≠ entryId) → update_entry db entryId name age email = db)

/-- Conclusion of claim C5: `delete_entry` removes exactly the matching row,
is a no-op on an absent id, and an unconfirmed delete submission makes no
storage call. -/
def C5Concl (db : DB) (entryId : Nat) : Prop :=
  (∀ r ∈ (delete_entry db entryId).rows, r ∈ db.rows ∧ r.id ≠ entryId) ∧
  (∀ r ∈ db.rows, r.id ≠ entryId → r ∈ (delete_entry db entryId).rows) ∧
  ((∀ r ∈ db.rows, r.id ≠ entryId) → delete_entry db entryId = db) ∧
  (WF db → (∃ r ∈ db.rows, r.id = entryId) →
    (delete_entry db entryId).rows.length + 1 = db.rows.length) ∧
  handleEvent db (.delete entryId false) =
    (db, .errorShown "Please confirm deletion by checking the box.", [])

/-- Conclusion of claim C7: a zero (absent) age widget value is persisted as
NULL and a non-zero one as that integer, in both the add and update flows. -/
def C7Concl (db : DB) (name : String) (age : Nat) (email : String) (now : Nat)
    (entryId : Nat) : Prop :=
  ((handleEvent db (.add name 0 email now)).1.rows.map Entry.age).getLast? =
      some none ∧
  (age ≠ 0 →
    ((handleEvent db (.add name age email now)).1.rows.map Entry.age).getLast? =
      some (some (age : Int))) ∧
  (∀ (j : Nat) (r : Entry), db.rows.get? j = some r → r.id = entryId →
    (((handleEvent db (.update entryId name age email)).1.rows.get? j).map
      Entry.age) = some (formAge age)) ∧
  formAge 0 = none ∧
  (age ≠ 0 → formAge age = some (age : Int))

/-- Conclusion of claim C9: ids are never mutated (update), never shared
with a live row (insert), only removed by delete, and an id that is absent
and below the sequence counter never reappears under any event sequence. -/
def C9Concl (db : DB) : Prop :=
  (∀ (entryId : Nat) (name : String) (age : Option Int) (email : String),
    (update_entry db entryId name age email).rows.map Entry.id =
      db.rows.map Entry.id) ∧
  (∀ (name : String) (age : Option Int) (email : String) (now : Nat),
    (insert_entry db name age email now).2 = db.nextId ∧
    (insert_entry db name age email now).1.rows.map Entry.id =
      db.rows.map Entry.id ++ [db.nextId] ∧
    ∀ r ∈ db.rows, r.id ≠ db.nextId) ∧
  (∀ entryId : Nat, (delete_entry db entryId).rows.map Entry.id =
    (db.rows.map Entry.id).filter (fun j => j ≠ entryId)) ∧
  (∀ (events : List UIEvent) (j : Nat), j < db.nextId →
    (∀ r ∈ db.rows, r.id ≠ j) →
    ∀ db2 : DB, runEvents (some db) events = some db2 →
      ∀ r ∈ db2.rows, r.id ≠ j)

/-- What a connection trace of a data-access function actually guarantees:
it opens exactly one fresh connection first, executes exactly one statement,
commits before returning, and never closes the connection. -/
def TraceOK (t : List ConnEvent) : Prop :=
  t.head? = some ConnEvent.connect ∧
  t.countP (fun e => e == ConnEvent.connect) = 1 ∧
  t.countP (fun e => match e with | .executeStmt _ => true | _ => false) = 1 ∧
  ConnEvent.commit ∈ t ∧
  ConnEvent.close ∉ t

/-! ### Basic lemmas about the embedded operations -/

theorem view_all_perm (db : DB) : (view_all db).Perm db.rows :=
  List.mergeSort_perm db.rows _

theorem view_all_sorted (db : DB) :
    (view_all db).Pairwise (fun a b => b.id ≤ a.id) := by
  have h := @List.sorted_mergeSort Entry (fun a b => decide (b.id ≤ a.id))
    (by intro a b c hab hbc; simp at *; omega)
    (by intro a b; simp [Nat.le_total]) db.rows
  exact h.imp (by intro a b hh; simpa using hh)

theorem filter_ne_length (l : List Entry) (i : Nat) :
    (l.filter (fun r => r.id ≠ i)).length + l.countP (fun r => r.id == i) =
      l.length := by
  induction l with
  | nil => rfl
  | cons r l ih =>
    simp only [List.filter_cons, List.countP_cons] at ih ⊢
    by_cases h : r.id = i <;> simp [h] at ih ⊢ <;> omega

theorem countP_id_eq_one {l : List Entry} (hnd : (l.map Entry.id).Nodup)
    {i : Nat} (hex : ∃ r ∈ l, r.id = i) :
    l.countP (fun r => r.id == i) = 1 := by
  induction l with
  | nil => exact absurd hex (by simp)
  | cons r l ih =>
    simp only [List.map_cons, List.nodup_cons] at hnd
    rcases hnd with ⟨hnotin, hnd⟩
    by_cases h : r.id = i
    · have hzero : l.countP (fun r => r.id == i) = 0 := by
        apply List.countP_eq_zero.mpr
        intro a ha
        simp only [beq_iff_eq]
        intro hai
        have hra : r.id = a.id := by rw [h, hai]
        exact hnotin (by rw [hra]; exact List.mem_map_of_mem Entry.id ha)
      simp [List.countP_cons, h, hzero]
    · rcases hex with ⟨a, ha, hai⟩
      rcases List.mem_cons.mp ha with rfl | ha2
      · exact absurd hai h
      · have := ih hnd ⟨a, ha2, hai⟩
        simp [List.countP_cons, h, this]

theorem formAge_ok (a : Nat) (ha : a ≤ 150) :
    formAge a = none ∨ ∃ z : Int, formAge a = some z ∧ 0 ≤ z ∧ z ≤ 150 := by
  unfold formAge
  by_cases h : a = 0
  · left; simp [h]
  · right; exact ⟨(a : Int), by simp [h], by positivity, by exact_mod_cast ha⟩

theorem ageok_handle (db : DB) (e : UIEvent) (hdb : AgeOK db)
    (he : widgetOK e) : AgeOK (handleEvent db e).1 := by
  cases e with
  | add name age email now =>
    simp only [handleEvent]
    by_cases h : name.trim = ""
    · simpa [h]
    · simp only [h, if_neg, reduceIte]
      intro r hr
      simp only [insert_entry, List.mem_append, List.mem_singleton] at hr
      rcases hr with hr | hr
      · exact hdb r hr
      · subst hr; exact formAge_ok age he
  | update entryId name age email =>
    simp only [handleEvent]
    by_cases h : name.trim = ""
    · simpa [h]
    · simp only [h, if_neg, reduceIte]
      intro r hr
      simp only [update_entry, List.mem_map] at hr
      rcases hr with ⟨a, ha, rfl⟩
      by_cases hid : a.id = entryId
      · simp only [hid, if_pos, reduceIte]
        exact formAge_ok age he
      · simp only [hid, if_neg, reduceIte]
        exact hdb a ha
  | delete entryId confirm =>
    simp only [handleEvent]
    by_cases h : confirm <;> simp only [h, reduceIte]
    · intro r hr
      simp only [delete_entry, List.mem_filter] at hr
      exact hdb r hr.1
    · exact hdb

theorem mainStep_some (db : DB) (e : UIEvent) :
    mainStep (some db) e = some ((handleEvent db e).1) := rfl

theorem ageokfile_step (s : Option DB) (e : UIEvent) (hs : AgeOKFile s)
    (he : widgetOK e) : AgeOKFile (mainStep s e) := by
  intro db2 h
  cases s with
  | none =>
    have hdb2 : db2 = (handleEvent freshDB e).1 := by
      simp only [mainStep, create_table] at h
      exact (Option.some_inj.mp h).symm
    subst hdb2
    exact ageok_handle freshDB e (by intro r hr; simp [freshDB] at hr) he
  | some db =>
    have hdb2 : db2 = (handleEvent db e).1 := by
      simp only [mainStep, create_table] at h
      exact (Option.some_inj.mp h).symm
    subst hdb2
    exact ageok_handle db e (hs db rfl) he

theorem runEvents_ageok (events : List UIEvent)
    (hev : ∀ e ∈ events, widgetOK e) :
    ∀ s : Option DB, AgeOKFile s → AgeOKFile (runEvents s events) := by
  induction events with
  | nil => exact fun s hs => hs
  | cons e es ih =>
    intro s hs
    have he : widgetOK e := hev e (List.mem_cons_self e es)
    have hes : ∀ x ∈ es, widgetOK x := fun x hx => hev x (List.mem_cons_of_mem e hx)
    exact ih hes (mainStep s e) (ageokfile_step s e hs he)

theorem idfree_handle (db : DB) (e : UIEvent) (j : Nat) (hj : j < db.nextId)
    (hfree : ∀ r ∈ db.rows, r.id ≠ j) :
    j < (handleEvent db e).1.nextId ∧ ∀ r ∈ (handleEvent db e).1.rows, r.id ≠ j := by
  cases e with
  | add name age email now =>
    simp only [handleEvent]
    by_cases h : name.trim = ""
    · simpa [h] using ⟨hj, hfree⟩
    · simp only [h, reduceIte]
      refine ⟨by simp [insert_entry]; omega, ?_⟩
      intro r hr
      simp only [insert_entry, List.mem_append, List.mem_singleton] at hr
      rcases hr with hr | hr
      · exact hfree r hr
      · subst hr; simp; omega
  | update entryId name age email =>
    simp only [handleEvent]
    by_cases h : name.trim = ""
    · simpa [h] using ⟨hj, hfree⟩
    · simp only [h, reduceIte]
      refine ⟨hj, ?_⟩
      intro r hr
      simp only [update_entry, List.mem_map] at hr
      rcases hr with ⟨a, ha, rfl⟩
      by_cases hid : a.id = entryId
      · simp only [hid, reduceIte]
        exact hid ▸ hfree a ha
      · simp only [hid, reduceIte]
        exact hfree a ha
  | delete entryId confirm =>
    simp only [handleEvent]
    by_cases h : confirm <;> simp only [h, reduceIte]
    · refine ⟨hj, ?_⟩
      intro r hr
      simp only [delete_entry, List.mem_filter] at hr
      exact hfree r hr.1
    · exact ⟨hj, hfree⟩

theorem runEvents_idfree (events : List UIEvent) :
    ∀ (db : DB) (j : Nat), j < db.nextId → (∀ r ∈ db.rows, r.id ≠ j) →
    ∀ db2 : DB, runEvents (some db) events = some db2 →
      j < db2.nextId ∧ ∀ r ∈ db2.rows, r.id ≠ j := by
  induction events with
  | nil =>
    intro db j hj hfree db2 h
    have : db = db2 := Option.some_inj.mp h
    subst this
    exact ⟨hj, hfree⟩
  | cons e es ih =>
    intro db j hj hfree db2 h
    have hstep := idfree_handle db e j hj hfree
    have hrun : runEvents (some ((handleEvent db e).1)) es = some db2 := h
    exact ih ((handleEvent db e).1) j hstep.1 hstep.2 db2 hrun

/-! ### Claim theorems -/

/-- C6: the schema initializer `create_table` is idempotent: on a state
where the table exists it changes nothing (rows and counter kept), a first
run from the empty state creates the fresh table, and running it any
further number of times after one run is a no-op. -/
theorem create_table_idempotent_C6 :
    (∀ s : Option DB, create_table (create_table s) = create_table s) ∧
    (∀ db : DB, create_table (some db) = some db) ∧
    create_table none = some freshDB ∧
    (∀ (n : Nat) (s : Option DB),
      create_table^[n] (create_table s) = create_table s) := by
  refine ⟨fun s => by cases s <;> rfl, fun _ => rfl, rfl, ?_⟩
  intro n
  induction n with
  | zero => intro s; rfl
  | succ n ih =>
    intro s
    rw [Function.iterate_succ_apply]
    rw [show create_table (create_table s) = create_table s from by cases s <;> rfl]
    exact ih s

unseal List.mergeSort List.merge in
/-- C3: `view_all` returns a permutation of all rows (no pagination, no
bound), ordered by id descending, and after inserting ids 1, 2, 3 in that
order into a fresh table the result order is [3, 2, 1]. -/
theorem view_all_ordered_C3 :
    (∀ db : DB, (view_all db).Perm db.rows ∧
      (view_all db).Pairwise (fun a b => b.id ≤ a.id)) ∧
    (view_all (insert_entry (insert_entry (insert_entry freshDB
        "a" (some 1) "x" 1).1 "b" (some 2) "y" 2).1 "c" (some 3) "z" 3).1).map
      Entry.id = [3, 2, 1] :=
  ⟨fun db => ⟨view_all_perm db, view_all_sorted db⟩, by decide⟩

/-- C2: a submission of the add or update form whose name trims to the
empty string is rejected before any data-access call: the table is
returned unchanged, the call list is empty, and only the inline error
message is shown. -/
theorem reject_blank_name_C2 (db : DB) (name : String) (age : Nat)
    (email : String) (now : Nat) (entryId : Nat) (h : name.trim = "") :
    C2Concl db name age email now entryId := by
  unfold C2Concl handleEvent
  simp [h]

unseal Substring.takeWhileAux Substring.takeRightWhileAux in
theorem reject_blank_name_C2_witness :
    ("  ".trim = "") ∧ C2Concl dbW "  " 30 "e@x.com" 7 1 :=
  ⟨by decide, reject_blank_name_C2 dbW "  " 30 "e@x.com" 7 1 (by decide)⟩

/-- C5: `delete_entry` keeps exactly the rows with a different id (so on an
existing id, with well-formed unique ids, exactly one row disappears), is a
no-op when no row matches, and an unconfirmed delete submission makes no
storage call and leaves the table unchanged. -/
theorem delete_entry_C5 (db : DB) (entryId : Nat) : C5Concl db entryId := by
  unfold C5Concl
  refine ⟨?_, ?_, ?_, ?_, rfl⟩
  · intro r hr
    simp only [delete_entry, List.mem_filter] at hr
    exact ⟨hr.1, by simpa using hr.2⟩
  · intro r hr hne
    simp only [delete_entry, List.mem_filter]
    exact ⟨hr, by simpa using hne⟩
  · intro hall
    have heq : db.rows.filter (fun r => r.id ≠ entryId) = db.rows :=
      List.filter_eq_self.mpr (fun r hr => by simpa using hall r hr)
    show { db with rows := db.rows.filter (fun r => r.id ≠ entryId) } = db
    rw [heq]
  · intro hWFdb hex
    have h1 := filter_ne_length db.rows entryId
    have h2 := countP_id_eq_one hWFdb.2 hex
    simp only [delete_entry]
    omega

theorem delete_entry_C5_witness :
    C5Concl dbW 1 ∧ delete_entry dbW 9 = dbW ∧
    (delete_entry dbW 1).rows.length + 1 = dbW.rows.length :=
  ⟨delete_entry_C5 dbW 1,
   (delete_entry_C5 dbW 9).2.2.1 (by decide),
   (delete_entry_C5 dbW 1).2.2.2.1 (by decide) (by decide)⟩

/-- C4: `update_entry` keeps every row's id and created_at, keeps the row
count, rewrites exactly the three mutable fields of the rows whose id
matches while leaving every other row untouched, and is a no-op when no
row matches. -/
theorem update_entry_C4 (db : DB) (entryId : Nat) (name : String)
    (age : Option Int) (email : String) : C4Concl db entryId name age email := by
  unfold C4Concl update_entry
  refine ⟨?_, ?_, by simp, ?_, ?_⟩
  · simp only [List.map_map]
    apply List.map_congr_left
    intro a _
    by_cases h : a.id = entryId <;> simp [h, Function.comp]
  · simp only [List.map_map]
    apply List.map_congr_left
    intro a _
    by_cases h : a.id = entryId <;> simp [h, Function.comp]
  · intro j h1 h2
    simp only [List.get_eq_getElem] at *
    constructor
    · intro hid
      simp only [List.getElem_map, hid, reduceIte]
    · intro hid
      simp only [List.getElem_map, hid, reduceIte]
  · intro hall
    have heq : db.rows.map (fun r =>
        if r.id = entryId then
          { r with name := name, age := age, email := email }
        else r) = db.rows := by
      conv_rhs => rw [← List.map_id db.rows]
      apply List.map_congr_left
      intro a ha
      simp [hall a ha]
    simp [heq]

theorem update_entry_C4_witness :
    C4Concl dbW 1 "Ann" (some 22) "a@y.com" ∧
    update_entry dbW 9 "Zed" none "z@z.com" = dbW :=
  ⟨update_entry_C4 dbW 1 "Ann" (some 22) "a@y.com",
   (update_entry_C4 dbW 9 "Zed" none "z@z.com").2.2.2.2 (by decide)⟩

/-- C1: on a well-formed table, inserting ("Alice", 30, "a@x.com") appends
exactly one row carrying the server-assigned fresh id (the sequence value,
not held by any existing row) and a non-null created_at, `insert_entry`
returns that id, and `view_all` afterwards contains exactly one entry with
that id and those values. -/
theorem insert_entry_C1 (db : DB) (now : Nat) (hWF : WF db) :
    C1Concl db now := by
  unfold C1Concl
  refine ⟨rfl, rfl, ?_, ?_⟩
  · intro r hr
    have := hWF.1 r hr
    simp only [insert_entry]
    omega
  · rw [List.Perm.countP_eq _
      (view_all_perm (insert_entry db "Alice" (some 30) "a@x.com" now).1)]
    simp only [insert_entry]
    rw [List.countP_append]
    have h0 : db.rows.countP
        (fun r => r.id == db.nextId && r.name == "Alice" && r.age == some 30 &&
          r.email == "a@x.com" && r.created_at != none) = 0 := by
      apply List.countP_eq_zero.mpr
      intro r hr hc
      have hlt := hWF.1 r hr
      simp only [Bool.and_eq_true, beq_iff_eq] at hc
      omega
    rw [h0]
    simp [List.countP_cons]

theorem insert_entry_C1_witness : WF dbW ∧ C1Concl dbW 7 :=
  ⟨by decide, insert_entry_C1 dbW 7 (by decide)⟩

/-- C7: an age widget value of zero (the default when the field is not
provided) is persisted as NULL by both the add flow and the update flow,
and any non-zero widget value is persisted as that integer. -/
theorem formAge_null_C7 (db : DB) (name : String) (age : Nat) (email : String)
    (now : Nat) (entryId : Nat) (hname : name.trim ≠ "") :
    C7Concl db name age email now entryId := by
  unfold C7Concl
  refine ⟨?_, ?_, ?_, rfl, ?_⟩
  · simp [handleEvent, hname, insert_entry, formAge]
  · intro hage
    simp [handleEvent, hname, insert_entry, formAge, hage]
  · intro j r hj hid
    have hrows : (handleEvent db (.update entryId name age email)).1 =
        update_entry db entryId name.trim (formAge age) email.trim := by
      simp [handleEvent, hname]
    rw [hrows]
    simp only [update_entry]
    rw [List.get?_map, hj]
    simp [hid]
  · intro hage
    simp [formAge, hage]

unseal Substring.takeWhileAux Substring.takeRightWhileAux in
theorem formAge_null_C7_witness :
    ("Ann".trim ≠ "") ∧ C7Concl dbW "Ann" 30 "e@x.com" 7 1 :=
  ⟨by decide, formAge_null_C7 dbW "Ann" 30 "e@x.com" 7 1 (by decide)⟩

/-- C8: starting from any database-file state whose persisted ages are all
NULL or in [0, 150], any sequence of form submissions whose age widget
values respect the widget bound (0..150) leads only to states whose
persisted ages are all NULL or in [0, 150]. -/
theorem ages_in_range_C8 (s : Option DB) (events : List UIEvent)
    (hs : AgeOKFile s) (hev : ∀ e ∈ events, widgetOK e) :
    AgeOKFile (runEvents s events) :=
  runEvents_ageok events hev s hs

theorem ages_in_range_C8_witness :
    AgeOKFile (runEvents (some dbW) [UIEvent.add "Zed" 150 "z@x.com" 9]) :=
  ages_in_range_C8 (some dbW) [UIEvent.add "Zed" 150 "z@x.com" 9]
    (fun db h => (Option.some_inj.mp h) ▸ (by decide : AgeOK dbW))
    (by
      intro e he
      simp only [List.mem_singleton] at he
      subst he
      decide)

/-- C9: on a well-formed table, update never changes any row's id, insert
returns the sequence value as the new id and that id is fresh (not held by
any existing row), delete only removes ids, and an id that is below the
sequence counter and absent from the table (e.g. a deleted id) never
appears again under any sequence of form submissions. -/
theorem ids_never_reused_C9 (db : DB) (hWF : WF db) : C9Concl db := by
  unfold C9Concl
  refine ⟨?_, ?_, ?_, ?_⟩
  · intro entryId name age email
    simp only [update_entry, List.map_map]
    apply List.map_congr_left
    intro a _
    by_cases h : a.id = entryId <;> simp [h, Function.comp]
  · intro name age email now
    refine ⟨rfl, by simp [insert_entry], ?_⟩
    intro r hr
    have := hWF.1 r hr
    omega
  · intro entryId
    simp only [delete_entry]
    induction db.rows with
    | nil => rfl
    | cons r l ih =>
      simp only [ne_eq, decide_not] at ih
      by_cases h : r.id = entryId <;>
        simp [List.filter_cons, h, ih]
  · intro events j hj hfree db2 hrun
    exact (runEvents_idfree events db j hj hfree db2 hrun).2

theorem ids_never_reused_C9_witness : WF dbW ∧ C9Concl dbW :=
  ⟨by decide, ids_never_reused_C9 dbW (by decide)⟩

/-- C10 counterexample: the connection traces of the data-access functions
contain no close event — the `with` block of the sqlite3 connection commits
on exit but does not close the connection, so the claim that each function
closes (releases) its connection before returning is false. -/
theorem conn_never_closed_C10_counterexample :
    ConnEvent.close ∉ insert_entry_trace ∧
    ConnEvent.close ∉ view_all_trace ∧
    ConnEvent.close ∉ get_entry_by_id_trace ∧
    ConnEvent.close ∉ update_entry_trace ∧
    ConnEvent.close ∉ delete_entry_trace := by decide

/-- C10 (amended): every data-access function opens exactly one fresh
connection first, executes exactly one statement, and commits before
returning, but never explicitly closes the connection. -/
theorem conn_traces_C10 :
    TraceOK create_table_trace ∧ TraceOK insert_entry_trace ∧
    TraceOK view_all_trace ∧ TraceOK get_entry_by_id_trace ∧
    TraceOK update_entry_trace ∧ TraceOK delete_entry_trace := by
  unfold TraceOK
  decide
